import Mathlib

/-!
Shallow embedding of the PyMCPClient orchestration client (`src/client.py`)
and verification of its specification claims.

The embedding models:
* `connect_to_server` — suffix classification, transport/handshake steps,
  session registration and tool-list retrieval, with the exact order of
  state mutations of the source (the session is stored in `sessions`
  before `list_tools` is awaited);
* `process_query` — the no-session guard, the fresh per-call tool catalog
  and routing map, the initial streamed model call, the stream-event loop,
  and the per-tool dispatch loop with its `try/except` recovery and
  per-tool follow-up model call.

Python dictionaries are modelled as insertion-ordered association lists
(`alookup` / `insertA` reproduce `dict.get` and `dict.__setitem__`),
collaborators (the model API and the per-session `call_tool`) are function
parameters bundled in `Env`, and the observable behaviour of one call is
collected as a trace of `Effect`s (output-callback chunks, model
submissions with or without a tool catalog, and tool invocations).
-/

/-- A tool descriptor as advertised by a server: name, description and
input schema (the schema is kept opaque as a string). -/
structure Tool where
  name : String
  description : String
  inputSchema : String
  deriving DecidableEq, Repr

/-- One conversation message: a role (`"user"` or `"assistant"`) and its
content (opaque rendering of the Python value). -/
structure Message where
  role : String
  content : String
  deriving DecidableEq, Repr

/-- A stream event of the model response, as discriminated by
`process_query`: a text delta, a message stop, or anything else
(ignored by the loops). -/
inductive StreamEvent where
  | textDelta (s : String)
  | messageStop
  | other
  deriving DecidableEq, Repr

/-- A `tool_use` content block of the final streamed message: tool name,
input arguments (opaque rendering), and the optional `text` attribute
consulted at line 186 of the source. -/
structure ToolUse where
  name : String
  input : String
  text : Option String
  deriving DecidableEq, Repr

/-- The outcome of one successful model streaming call: the events seen by
the event loop and the `tool_use` blocks of `get_final_message()`. -/
structure ModelResponse where
  events : List StreamEvent
  toolUses : List ToolUse
  deriving DecidableEq, Repr

/-- Observable side effects of one `process_query` call:
`output_callback` invocations, model submissions (with the optional
`tools` parameter recorded), and `call_tool` invocations. -/
inductive Effect where
  | outputChunk (s : String)
  | modelCall (messages : List Message) (tools : Option (List Tool))
  | toolCall (serverId : String) (name : String) (args : String)
  deriving DecidableEq, Repr

/-- Exceptions that can escape `process_query`: a model API failure of the
initial submission, or a `KeyError` on the session lookup. -/
inductive PyError where
  | modelApi (msg : String)
  | keyError (k : String)
  deriving DecidableEq, Repr

/-- The mutable state of an `MCPClient` instance: the `sessions` dict
(session handles are opaque naturals) and the `server_tools` dict, both
insertion-ordered. -/
structure MCPClient where
  sessions : List (String × Nat)
  server_tools : List (String × List Tool)
  deriving DecidableEq, Repr

/-- The external collaborators of `process_query`: the Anthropic streaming
call (`messages`, optional `tools`) and a session's `call_tool`
(session handle, tool name, arguments). Errors carry their `str(e)`. -/
structure Env where
  model : List Message → Option (List Tool) → Except String ModelResponse
  callTool : Nat → String → String → Except String String

/-- Python `dict.get`: the value at the first matching key, if any. -/
def alookup {α : Type} : List (String × α) → String → Option α
  | [], _ => none
  | (k₁, v) :: rest, k => if k₁ = k then some v else alookup rest k

/-- Python `dict.__setitem__`: replace the value at the first matching key
in place, or append a new entry at the end. -/
def insertA {α : Type} : List (String × α) → String → α → List (String × α)
  | [], k, v => [(k, v)]
  | (k₁, v₁) :: rest, k, v =>
    if k₁ = k then (k, v) :: rest else (k₁, v₁) :: insertA rest k v

/-- The behaviour of one would-be server endpoint handed to
`connect_to_server`: its script path and the outcomes of the transport
setup, the `initialize` handshake, and `list_tools` (`none` = raises). -/
structure ServerSpec where
  path : String
  transportOk : Bool
  initOk : Bool
  handle : Nat
  listToolsResult : Option (List Tool)
  deriving DecidableEq, Repr

/-- The ways `connect_to_server` can raise: the suffix `ValueError`, a
transport failure, an `initialize` failure, or a `list_tools` failure. -/
inductive ConnectError where
  | valueError
  | transportError
  | handshakeError
  | listToolsError
  deriving DecidableEq, Repr

/-- Python `str.endswith`, modelled over the character list. -/
def strEndsWith (s suffix : String) : Bool :=
  List.isSuffixOf suffix.data s.data

/-- The identifier `connect_to_server` computes for the next connection:
`server_{len(self.sessions) + 1}`. -/
def nextServerId (st : MCPClient) : String :=
  "server_" ++ toString (st.sessions.length + 1)

/-- `connect_to_server` (src/client.py lines 26-78). Returns the call's
result together with the client state as the call leaves it — mutations
performed before an exception persist, exactly as in Python. The order of
steps mirrors the source: suffix check, transport, `initialize`,
`self.sessions[server_id] = session`, then `list_tools` and
`self.server_tools[server_id] = tools`. -/
def connect_to_server (st : MCPClient) (spec : ServerSpec) :
    Except ConnectError String × MCPClient :=
  if ¬(strEndsWith spec.path ".py" ∨ strEndsWith spec.path ".js") then
    (Except.error ConnectError.valueError, st)
  else
    let server_id := nextServerId st
    if ¬spec.transportOk then (Except.error ConnectError.transportError, st)
    else if ¬spec.initOk then (Except.error ConnectError.handshakeError, st)
    else
      let st₁ : MCPClient :=
        { st with sessions := insertA st.sessions server_id spec.handle }
      match spec.listToolsResult with
      | none => (Except.error ConnectError.listToolsError, st₁)
      | some tools =>
        let st₂ : MCPClient :=
          { st₁ with server_tools := insertA st₁.server_tools server_id tools }
        (Except.ok server_id, st₂)

/-- The per-call tool catalog and routing map of `process_query`
(src/client.py lines 104-118): all registered servers in registration
order, their tools in listing order, flattened into `available_tools` and
the `tool_to_server_map`. -/
def buildCatalog (server_tools : List (String × List Tool)) :
    List Tool × List (String × String) :=
  server_tools.foldl
    (fun acc p =>
      p.2.foldl (fun acc₂ t => (acc₂.1 ++ [t], insertA acc₂.2 t.name p.1)) acc)
    ([], [])

/-- The fixed message returned when no server is connected
(src/client.py line 93). -/
def noSessionMsg : String :=
  "エラー: サーバーに接続されていません。まずサーバーに接続してください。"

/-- The synthesized message for a tool name that resolves to no server
(src/client.py line 164). -/
def unresolvedMsg (toolName : String) : String :=
  "\nエラー: ツール \x27" ++ toolName ++ "\x27 に対応するサーバーが見つかりません。"

/-- The inline progress message printed before each tool invocation
(src/client.py line 173). -/
def toolCallMsg (serverId toolName args : String) : String :=
  "\n[" ++ serverId ++ "のツール " ++ toolName ++ " を呼び出し中、引数: " ++ args ++ "]"

/-- The streamed-result message printed after a successful tool call
(src/client.py line 182). -/
def toolResultMsg (content : String) : String :=
  "\nツール実行結果: " ++ content

/-- The progress message printed before the follow-up model call
(src/client.py line 197). -/
def processingMsg : String :=
  "\n\nClaudeがツール結果を処理中...\n"

/-- The synthesized message of the per-tool `except` handler
(src/client.py line 217). -/
def toolErrMsg (serverId e : String) : String :=
  "\nツール実行エラー (" ++ serverId ++ "): " ++ e

/-- The assistant message optionally folded in before the tool result: the
`tool_use` block's `text` attribute when present and truthy
(src/client.py lines 186-190). -/
def assistantText (tu : ToolUse) : List Message :=
  match tu.text with
  | some t => if t = "" then [] else [⟨"assistant", t⟩]
  | none => []

/-- The event loop over the initial streamed response (src/client.py
lines 134-149): text deltas are forwarded to the output callback and
accumulated in `text_buffer`; `message_stop` flushes a non-empty buffer
into `final_text`; other events are ignored. Returns the final buffer,
the final `final_text`, and the output effects in order. -/
def streamLoop : List StreamEvent → String → List String →
    String × List String × List Effect
  | [], buf, ft => (buf, ft, [])
  | StreamEvent.textDelta t :: rest, buf, ft =>
    let p := streamLoop rest (buf ++ t) ft
    (p.1, p.2.1, Effect.outputChunk t :: p.2.2)
  | StreamEvent.messageStop :: rest, buf, ft =>
    if buf = "" then streamLoop rest buf ft
    else streamLoop rest "" (ft ++ [buf])
  | StreamEvent.other :: rest, buf, ft => streamLoop rest buf ft

/-- The event loop over a follow-up streamed response (src/client.py
lines 205-209): only text deltas are handled — forwarded to the output
callback and accumulated; no flush on `message_stop` inside the loop.
Returns the final buffer and the output effects in order. -/
def followLoop : List StreamEvent → String → String × List Effect
  | [], buf => (buf, [])
  | StreamEvent.textDelta t :: rest, buf =>
    let p := followLoop rest (buf ++ t)
    (p.1, Effect.outputChunk t :: p.2)
  | _ :: rest, buf => followLoop rest buf

/-- The mutable locals of `process_query` threaded through the tool
dispatch loop: `messages`, `final_text`, `text_buffer`, and the effect
trace accumulated so far. -/
structure LoopState where
  messages : List Message
  final_text : List String
  text_buffer : String
  effects : List Effect
  deriving DecidableEq, Repr

/-- The body of the `try:` block of the tool dispatch loop (src/client.py
lines 178-214): invoke `call_tool`, on success stream the result message,
fold the optional assistant text and the user-role result into the
transcript, announce and perform the follow-up model call (without a
`tools` parameter), and run the follow-up event loop, flushing a
non-empty buffer into `final_text`. Returns the state together with
`some str(e)` when an exception was raised inside the block. -/
def tryBody (env : Env) (session : Nat) (server_id : String) (tu : ToolUse)
    (s : LoopState) : LoopState × Option String :=
  let s₁ : LoopState :=
    { s with effects := s.effects ++ [Effect.toolCall server_id tu.name tu.input] }
  match env.callTool session tu.name tu.input with
  | Except.error e => (s₁, some e)
  | Except.ok content =>
    let s₂ : LoopState :=
      { s₁ with effects := s₁.effects ++ [Effect.outputChunk (toolResultMsg content)] }
    let s₃ : LoopState :=
      { s₂ with messages := s₂.messages ++ assistantText tu ++ [⟨"user", content⟩] }
    let s₄ : LoopState :=
      { s₃ with effects := s₃.effects ++ [Effect.outputChunk processingMsg] }
    let s₅ : LoopState :=
      { s₄ with effects := s₄.effects ++ [Effect.modelCall s₄.messages none] }
    match env.model s₄.messages none with
    | Except.error e => (s₅, some e)
    | Except.ok resp₂ =>
      let p := followLoop resp₂.events s₅.text_buffer
      let s₆ : LoopState :=
        { s₅ with text_buffer := p.1, effects := s₅.effects ++ p.2 }
      if p.1 = "" then (s₆, none)
      else ({ s₆ with final_text := s₆.final_text ++ [p.1], text_buffer := "" }, none)

/-- The tool dispatch loop of `process_query` (src/client.py
lines 157-219): for each collected `tool_use` block in order, resolve the
name through `tool_to_server_map` (a falsy result synthesizes an inline
error and continues), look the session up in `self.sessions` (a missing
key raises `KeyError`, aborting the loop), announce the call, and run the
`try:` body, whose exceptions are recovered as a synthesized
tool-execution-error message. Returns the final state and `some e` when
an uncaught exception aborted the loop. -/
def dispatchTools (env : Env) (sessions : List (String × Nat))
    (map : List (String × String)) :
    List ToolUse → LoopState → LoopState × Option PyError
  | [], s => (s, none)
  | tu :: rest, s =>
    let server_id := (alookup map tu.name).getD ""
    if server_id = "" then
      let error_msg := unresolvedMsg tu.name
      dispatchTools env sessions map rest
        { s with final_text := s.final_text ++ [error_msg],
                 effects := s.effects ++ [Effect.outputChunk error_msg] }
    else
      match alookup sessions server_id with
      | none => (s, some (PyError.keyError server_id))
      | some session =>
        let tool_msg := toolCallMsg server_id tu.name tu.input
        let s₁ : LoopState :=
          { s with final_text := s.final_text ++ [tool_msg],
                   effects := s.effects ++ [Effect.outputChunk tool_msg] }
        match tryBody env session server_id tu s₁ with
        | (s₂, none) => dispatchTools env sessions map rest s₂
        | (s₂, some e) =>
          let error_msg := toolErrMsg server_id e
          dispatchTools env sessions map rest
            { s₂ with final_text := s₂.final_text ++ [error_msg],
                      effects := s₂.effects ++ [Effect.outputChunk error_msg] }

/-- The observable outcome of one `process_query` call: its return value
or escaped exception, the effect trace, the final value of the local
`messages` transcript, and the client state after the call. -/
structure QueryResult where
  result : Except PyError String
  effects : List Effect
  messages : List Message
  post : MCPClient

/-- `process_query` (src/client.py lines 80-222): the no-session guard,
the fresh catalog and routing map, the initial streamed model call (whose
failure propagates as a `ModelApiError`), the stream-event loop, the tool
dispatch loop, and the final join of `final_text` with newlines. -/
def processQuery (st : MCPClient) (env : Env) (query : String) : QueryResult :=
  if st.sessions = [] then
    { result := Except.ok noSessionMsg, effects := [], messages := [], post := st }
  else
    let messages₀ : List Message := [⟨"user", query⟩]
    let catalog := buildCatalog st.server_tools
    let initEff := Effect.modelCall messages₀ (some catalog.1)
    match env.model messages₀ (some catalog.1) with
    | Except.error e =>
      { result := Except.error (PyError.modelApi e), effects := [initEff],
        messages := messages₀, post := st }
    | Except.ok resp =>
      let p := streamLoop resp.events "" []
      let s₀ : LoopState := ⟨messages₀, p.2.1, p.1, initEff :: p.2.2⟩
      let d := dispatchTools env st.sessions catalog.2 resp.toolUses s₀
      match d.2 with
      | none =>
        { result := Except.ok (String.intercalate "\n" d.1.final_text),
          effects := d.1.effects, messages := d.1.messages, post := st }
      | some e =>
        { result := Except.error e, effects := d.1.effects,
          messages := d.1.messages, post := st }

/-- `dict.get` after `dict.__setitem__`: the inserted key reads back the
new value; other keys are unaffected. -/
theorem alookup_insertA {α : Type} (m : List (String × α)) (k k' : String) (v : α) :
    alookup (insertA m k v) k' = if k' = k then some v else alookup m k' := by
  induction m with
  | nil =>
    by_cases h : k' = k
    · subst h; simp [insertA, alookup]
    · simp [insertA, alookup, h, Ne.symm h]
  | cons p rest ih =>
    obtain ⟨k₁, v₁⟩ := p
    by_cases h₁ : k₁ = k
    · subst h₁
      by_cases h₂ : k' = k₁
      · subst h₂; simp [insertA, alookup]
      · simp [insertA, alookup, h₂, Ne.symm h₂]
    · by_cases h₂ : k₁ = k'
      · subst h₂
        simp [insertA, alookup, h₁, Ne.symm h₁]
      · simp [insertA, alookup, h₁, h₂, ih]

/-- Inserting a key absent from an association list appends the new entry
at the end. -/
theorem insertA_of_not_mem {α : Type} (m : List (String × α)) (k : String) (v : α)
    (h : k ∉ m.map Prod.fst) : insertA m k v = m ++ [(k, v)] := by
  induction m with
  | nil => rfl
  | cons p rest ih =>
    obtain ⟨k₁, v₁⟩ := p
    simp only [List.map_cons, List.mem_cons] at h
    push_neg at h
    have h₁ : ¬k₁ = k := fun h' => h.1 h'.symm
    simp [insertA, h₁, ih h.2]

/-- Modelled from the spec's words, for refinement comparison with
`buildCatalog`: the routing map "resolves that name to the session
registered later", i.e. the owner of a tool name is the last entry of
`server_tools`, in registration order, advertising a tool of that name. -/
def lastOwner (server_tools : List (String × List Tool)) (name : String) :
    Option String :=
  server_tools.foldl
    (fun acc p => if p.2.any (fun t => t.name = name) then some p.1 else acc) none

/-- Folding one server's tool list into the catalog accumulator: the
routing map resolves `name` to this server exactly when one of its tools
is called `name`, and otherwise keeps the previous resolution. -/
theorem alookup_toolsFold (tools : List Tool) (sid name : String)
    (acc : List Tool × List (String × String)) :
    alookup (tools.foldl
        (fun acc₂ t => (acc₂.1 ++ [t], insertA acc₂.2 t.name sid)) acc).2 name =
      if tools.any (fun t => t.name = name) then some sid
      else alookup acc.2 name := by
  induction tools generalizing acc with
  | nil => simp
  | cons t ts ih =>
    rw [List.foldl_cons, ih]
    by_cases h₁ : ts.any (fun t => t.name = name)
    · simp [h₁]
    · by_cases h₂ : t.name = name
      · simp [h₁, h₂, alookup_insertA]
      · have h₂' : ¬name = t.name := fun h => h₂ h.symm
        simp [h₁, h₂, alookup_insertA, h₂']

/-- Folding a list of servers into the catalog accumulator mirrors the
`lastOwner` fold on the resolution of `name`. -/
theorem alookup_catalogFold (l : List (String × List Tool)) (name : String)
    (acc : List Tool × List (String × String)) :
    alookup (l.foldl
        (fun acc p =>
          p.2.foldl (fun acc₂ t => (acc₂.1 ++ [t], insertA acc₂.2 t.name p.1)) acc)
        acc).2 name =
      l.foldl
        (fun o p => if p.2.any (fun t => t.name = name) then some p.1 else o)
        (alookup acc.2 name) := by
  induction l generalizing acc with
  | nil => rfl
  | cons p rest ih =>
    rw [List.foldl_cons, List.foldl_cons, ih, alookup_toolsFold]

/-- Claim C6: for every pair of registered sessions advertising a tool of
the same name, the routing map built by `process_query` resolves that
name to the session registered later — in general, `tool_to_server_map`
resolves every tool name to the last server, in registration order, that
advertises it (last-writer-wins). -/
theorem catalog_last_writer_wins (l : List (String × List Tool)) (name : String) :
    alookup (buildCatalog l).2 name = lastOwner l name := by
  unfold buildCatalog lastOwner
  rw [alookup_catalogFold]
  rfl

/-- Claim C9: with zero connected sessions, `process_query` returns the
fixed no-session error message, performs no model call (the effect trace
is empty), and leaves the state untouched. -/
theorem no_session_guard (st : MCPClient) (env : Env) (q : String)
    (h : st.sessions = []) :
    processQuery st env q =
      { result := Except.ok noSessionMsg, effects := [], messages := [],
        post := st } := by
  unfold processQuery
  simp [h]

/-- Witness for `no_session_guard` at the empty client. -/
theorem no_session_guard_witness :
    processQuery ⟨[], []⟩
        ⟨fun _ _ => Except.error "unused", fun _ _ _ => Except.error "unused"⟩
        "anything" =
      { result := Except.ok noSessionMsg, effects := [], messages := [],
        post := ⟨[], []⟩ } :=
  no_session_guard ⟨[], []⟩
    ⟨fun _ _ => Except.error "unused", fun _ _ _ => Except.error "unused"⟩
    "anything" rfl

/-- Claim C10: `process_query` never mutates the session registry — the
client state after the call (`sessions` and `server_tools`) is exactly
the state before it, for every query, every model behaviour and every
tool-call outcome; the catalog and routing map are local values rebuilt
from `server_tools` on each call. -/
theorem processQuery_preserves_registry (st : MCPClient) (env : Env) (q : String) :
    (processQuery st env q).post = st := by
  unfold processQuery
  split
  · rfl
  · dsimp only
    split
    · rfl
    · split <;> rfl

/-- An environment whose collaborators always fail; used to instantiate
theorems at concrete inputs. -/
def envTrivial : Env :=
  ⟨fun _ _ => Except.error "model down", fun _ _ _ => Except.error "tool down"⟩

/-- Claim C4 (amended): a tool-use event whose name resolves to no server
does not abort the dispatch loop — the loop continues with the remaining
events after appending the synthesized error message once to the live
output stream and once to the returned `final_text`; the `messages`
transcript is NOT modified (the source appends the error only to
`output_callback` and `final_text`). -/
theorem unresolved_tool_step (env : Env) (sessions : List (String × Nat))
    (map : List (String × String)) (tu : ToolUse) (rest : List ToolUse)
    (s : LoopState) (h : (alookup map tu.name).getD "" = "") :
    dispatchTools env sessions map (tu :: rest) s =
      dispatchTools env sessions map rest
        { s with final_text := s.final_text ++ [unresolvedMsg tu.name],
                 effects := s.effects ++ [Effect.outputChunk (unresolvedMsg tu.name)] } := by
  simp [dispatchTools, h]

/-- Witness for `unresolved_tool_step`: one session advertising `a`, one
tool-use event naming `b`. -/
theorem unresolved_tool_step_witness :
    dispatchTools envTrivial [("server_1", 0)] [("a", "server_1")]
        [⟨"b", "args", none⟩] ⟨[⟨"user", "q"⟩], [], "", []⟩ =
      dispatchTools envTrivial [("server_1", 0)] [("a", "server_1")] []
        { messages := [⟨"user", "q"⟩],
          final_text := [] ++ [unresolvedMsg "b"],
          text_buffer := "",
          effects := [] ++ [Effect.outputChunk (unresolvedMsg "b")] } :=
  unresolved_tool_step envTrivial [("server_1", 0)] [("a", "server_1")]
    ⟨"b", "args", none⟩ [] ⟨[⟨"user", "q"⟩], [], "", []⟩ (by decide)

/-- Claim C7: a dispatched tool call that raises does not abort the turn —
the loop appends the synthesized tool-execution-error message (in place of
any result: the transcript gains no result message and no follow-up model
call happens for this event) and continues with the remaining tool-use
events in order. -/
theorem failing_tool_step (env : Env) (sessions : List (String × Nat))
    (map : List (String × String)) (tu : ToolUse) (rest : List ToolUse)
    (s : LoopState) (sid : String) (session : Nat) (e : String)
    (h₁ : (alookup map tu.name).getD "" = sid) (h₂ : sid ≠ "")
    (h₃ : alookup sessions sid = some session)
    (h₄ : env.callTool session tu.name tu.input = Except.error e) :
    dispatchTools env sessions map (tu :: rest) s =
      dispatchTools env sessions map rest
        { s with
          final_text := s.final_text ++
            [toolCallMsg sid tu.name tu.input, toolErrMsg sid e],
          effects := s.effects ++
            [Effect.outputChunk (toolCallMsg sid tu.name tu.input),
             Effect.toolCall sid tu.name tu.input,
             Effect.outputChunk (toolErrMsg sid e)] } := by
  simp [dispatchTools, tryBody, h₁, h₂, h₃, h₄]

/-- Witness for `failing_tool_step`: one session whose `call_tool` raises. -/
theorem failing_tool_step_witness :
    dispatchTools envTrivial [("server_1", 0)] [("echo", "server_1")]
        [⟨"echo", "args", none⟩] ⟨[⟨"user", "q"⟩], [], "", []⟩ =
      dispatchTools envTrivial [("server_1", 0)] [("echo", "server_1")] []
        { messages := [⟨"user", "q"⟩],
          final_text := [] ++
            [toolCallMsg "server_1" "echo" "args", toolErrMsg "server_1" "tool down"],
          text_buffer := "",
          effects := [] ++
            [Effect.outputChunk (toolCallMsg "server_1" "echo" "args"),
             Effect.toolCall "server_1" "echo" "args",
             Effect.outputChunk (toolErrMsg "server_1" "tool down")] } :=
  failing_tool_step envTrivial [("server_1", 0)] [("echo", "server_1")]
    ⟨"echo", "args", none⟩ [] ⟨[⟨"user", "q"⟩], [], "", []⟩
    "server_1" 0 "tool down" rfl (by decide) rfl rfl

/-- Claim C5 (amended): a `ModelApiError` of the INITIAL streamed
submission is not recovered and propagates out of `process_query`; but a
`ModelApiError` of a FOLLOW-UP submission is raised inside the per-tool
`try:` block, is caught by its `except`, and is recovered as a synthesized
tool-execution-error message — the dispatch loop continues and the call
returns normally. -/
theorem model_error_propagation :
    (∀ (st : MCPClient) (env : Env) (q e : String),
      st.sessions ≠ [] →
      env.model [⟨"user", q⟩] (some (buildCatalog st.server_tools).1) =
        Except.error e →
      (processQuery st env q).result = Except.error (PyError.modelApi e)) ∧
    (∀ (env : Env) (sessions : List (String × Nat)) (map : List (String × String))
      (tu : ToolUse) (rest : List ToolUse) (s : LoopState) (sid : String)
      (session : Nat) (content e : String),
      (alookup map tu.name).getD "" = sid → sid ≠ "" →
      alookup sessions sid = some session →
      env.callTool session tu.name tu.input = Except.ok content →
      env.model (s.messages ++ assistantText tu ++ [⟨"user", content⟩]) none =
        Except.error e →
      dispatchTools env sessions map (tu :: rest) s =
        dispatchTools env sessions map rest
          { s with
            messages := s.messages ++ assistantText tu ++ [⟨"user", content⟩],
            final_text := s.final_text ++
              [toolCallMsg sid tu.name tu.input, toolErrMsg sid e],
            effects := s.effects ++
              [Effect.outputChunk (toolCallMsg sid tu.name tu.input),
               Effect.toolCall sid tu.name tu.input,
               Effect.outputChunk (toolResultMsg content),
               Effect.outputChunk processingMsg,
               Effect.modelCall (s.messages ++ assistantText tu ++ [⟨"user", content⟩])
                 none,
               Effect.outputChunk (toolErrMsg sid e)] }) := by
  constructor
  · intro st env q e h₀ h₁
    unfold processQuery
    simp [h₀, h₁]
  · intro env sessions map tu rest s sid session content e h₁ h₂ h₃ h₄ h₅
    simp only [List.append_assoc] at h₅
    simp [dispatchTools, tryBody, h₁, h₂, h₃, h₄, h₅]

/-- Witness for `model_error_propagation`: part one at a client whose
initial model call fails; part two at a session whose tool call succeeds
and whose follow-up model call fails. -/
theorem model_error_propagation_witness :
    (processQuery ⟨[("server_1", 0)], []⟩ envTrivial "q").result =
        Except.error (PyError.modelApi "model down") ∧
    dispatchTools ⟨fun _ _ => Except.error "boom", fun _ _ _ => Except.ok "42"⟩
        [("server_1", 0)] [("double", "server_1")]
        [⟨"double", "x", none⟩] ⟨[⟨"user", "q"⟩], [], "", []⟩ =
      dispatchTools ⟨fun _ _ => Except.error "boom", fun _ _ _ => Except.ok "42"⟩
        [("server_1", 0)] [("double", "server_1")] []
        { messages := [⟨"user", "q"⟩] ++ assistantText ⟨"double", "x", none⟩ ++
            [⟨"user", "42"⟩],
          final_text := [] ++
            [toolCallMsg "server_1" "double" "x", toolErrMsg "server_1" "boom"],
          text_buffer := "",
          effects := [] ++
            [Effect.outputChunk (toolCallMsg "server_1" "double" "x"),
             Effect.toolCall "server_1" "double" "x",
             Effect.outputChunk (toolResultMsg "42"),
             Effect.outputChunk processingMsg,
             Effect.modelCall ([⟨"user", "q"⟩] ++ assistantText ⟨"double", "x", none⟩ ++
               [⟨"user", "42"⟩]) none,
             Effect.outputChunk (toolErrMsg "server_1" "boom")] } :=
  ⟨model_error_propagation.1 ⟨[("server_1", 0)], []⟩ envTrivial "q" "model down"
      (by decide) rfl,
    model_error_propagation.2
      ⟨fun _ _ => Except.error "boom", fun _ _ _ => Except.ok "42"⟩
      [("server_1", 0)] [("double", "server_1")]
      ⟨"double", "x", none⟩ [] ⟨[⟨"user", "q"⟩], [], "", []⟩
      "server_1" 0 "42" "boom" rfl (by decide) rfl rfl rfl⟩

/-- Decidable equality for `Except`, so that concrete results of the
embedded functions can be checked by `decide`. -/
instance {ε α : Type} [DecidableEq ε] [DecidableEq α] :
    DecidableEq (Except ε α) := fun a b =>
  match a, b with
  | Except.error x, Except.error y =>
    match decEq x y with
    | isTrue h => isTrue (h ▸ rfl)
    | isFalse h => isFalse fun hc => h (Except.error.inj hc)
  | Except.error _, Except.ok _ => isFalse fun hc => Except.noConfusion hc
  | Except.ok _, Except.error _ => isFalse fun hc => Except.noConfusion hc
  | Except.ok x, Except.ok y =>
    match decEq x y with
    | isTrue h => isTrue (h ▸ rfl)
    | isFalse h => isFalse fun hc => h (Except.ok.inj hc)

/-- Whether an effect is a model submission. -/
def isModelCall : Effect → Bool
  | Effect.modelCall _ _ => true
  | _ => false

/-- The number of model submissions in an effect trace. -/
def modelCallCount (effs : List Effect) : Nat :=
  effs.countP isModelCall

/-- A client with one registered session advertising one tool `t`. -/
def stOne : MCPClient :=
  ⟨[("server_1", 0)], [("server_1", [⟨"t", "d", "s"⟩])]⟩

/-- A model whose initial response requests tool `t` twice, and whose
follow-up responses stream plain text; every tool call returns `42`. -/
def envC1 : Env :=
  ⟨fun _ tools =>
      match tools with
      | some _ =>
        Except.ok ⟨[StreamEvent.textDelta "hi", StreamEvent.messageStop],
          [⟨"t", "a", none⟩, ⟨"t", "b", none⟩]⟩
      | none =>
        Except.ok ⟨[StreamEvent.textDelta "done", StreamEvent.messageStop], []⟩,
    fun _ _ _ => Except.ok "42"⟩

/-- Claim C1 counterexample: a streamed response with TWO tool-use blocks.
The claim demands that the engine dispatch all of them and only then
resubmit exactly once, so the trace would contain 2 model submissions
(initial + one follow-up); the code instead resubmits once per
successfully dispatched tool call, giving 3 model submissions
(initial + one follow-up per tool). -/
theorem followup_per_tool_counterexample :
    (envC1.model [⟨"user", "q"⟩]
          (some (buildCatalog stOne.server_tools).1)).toOption.map
        (fun r => r.toolUses.length) = some 2 ∧
    modelCallCount (processQuery stOne envC1 "q").effects = 3 := by decide

/-- A server endpoint whose transport and handshake succeed but whose
`list_tools` raises. -/
def specLT : ServerSpec := ⟨"srv.py", true, true, 7, none⟩

/-- Claim C2 counterexample: a `connect_to_server` call that fails at the
tool-listing step is NOT all-or-nothing — starting from the empty client
the call raises, yet `self.sessions` has gained the `server_1` entry
(`self.server_tools` is unchanged), because the source stores the session
before awaiting `list_tools`. -/
theorem connect_partial_state_counterexample :
    (connect_to_server ⟨[], []⟩ specLT).1 =
        Except.error ConnectError.listToolsError ∧
    (connect_to_server ⟨[], []⟩ specLT).2.sessions = [("server_1", 7)] ∧
    (connect_to_server ⟨[], []⟩ specLT).2.server_tools = [] := by decide

/-- A server endpoint whose `initialize` handshake fails. -/
def specFailInit : ServerSpec := ⟨"a.py", true, false, 1, some []⟩

/-- A server endpoint that connects successfully with no tools. -/
def specOk : ServerSpec := ⟨"b.py", true, true, 2, some []⟩

/-- Claim C3 counterexample: the identifier index is NOT monotonically
increasing independent of failures — after a first connect that fails at
the `initialize` handshake, the second connect is assigned `server_1`
(the identifier the failed call had computed), not `server_2`, because
the index is recomputed as `len(self.sessions) + 1`. -/
theorem session_id_reuse_counterexample :
    (connect_to_server ⟨[], []⟩ specFailInit).1 =
        Except.error ConnectError.handshakeError ∧
    (connect_to_server ⟨[], []⟩ specFailInit).2 = ⟨[], []⟩ ∧
    (connect_to_server (connect_to_server ⟨[], []⟩ specFailInit).2 specOk).1 =
        Except.ok "server_1" := by decide

/-- A client with one registered session advertising one tool `a`. -/
def stC4 : MCPClient :=
  ⟨[("server_1", 0)], [("server_1", [⟨"a", "d", "s"⟩])]⟩

/-- A model whose initial response requests the unregistered tool `b`. -/
def envC4 : Env :=
  ⟨fun _ tools =>
      match tools with
      | some _ => Except.ok ⟨[], [⟨"b", "args", none⟩]⟩
      | none => Except.error "unreached",
    fun _ _ _ => Except.error "unreached"⟩

/-- Claim C4 counterexample: a tool-use event naming the unregistered tool
`b`. The turn does reach `Done` and the synthesized error is emitted once
on the live output stream and returned, but the `messages` transcript
stays at the single seed user message — the claim's "appended to the
transcript (messages)" does not hold (the source appends the error to
`final_text`, not to `messages`). -/
theorem unresolved_tool_transcript_counterexample :
    (processQuery stC4 envC4 "q").messages = [⟨"user", "q"⟩] ∧
    (processQuery stC4 envC4 "q").effects =
      [Effect.modelCall [⟨"user", "q"⟩] (some [⟨"a", "d", "s"⟩]),
       Effect.outputChunk (unresolvedMsg "b")] ∧
    (processQuery stC4 envC4 "q").result = Except.ok (unresolvedMsg "b") := by
  decide

/-- A model whose initial response requests tool `t` once and whose
follow-up call fails with a `ModelApiError`; the tool call succeeds. -/
def envC5 : Env :=
  ⟨fun _ tools =>
      match tools with
      | some _ => Except.ok ⟨[], [⟨"t", "x", none⟩]⟩
      | none => Except.error "boom",
    fun _ _ _ => Except.ok "42"⟩

/-- Claim C5 counterexample: the follow-up submission after the tool
result fails with a `ModelApiError` (two model submissions are in the
trace), yet `process_query` returns normally — the per-tool `except`
recovered the error as an inline message instead of propagating it. -/
theorem followup_model_error_recovered_counterexample :
    modelCallCount (processQuery stOne envC5 "q").effects = 2 ∧
    (processQuery stOne envC5 "q").result =
      Except.ok (toolCallMsg "server_1" "t" "x" ++ "\n" ++
        toolErrMsg "server_1" "boom") := by decide

/-- Whether a `connect_to_server` call gets past every step that precedes
the session registration: recognized suffix, transport setup, and the
`initialize` handshake. -/
def preRegOk (spec : ServerSpec) : Bool :=
  (strEndsWith spec.path ".py" || strEndsWith spec.path ".js") &&
    spec.transportOk && spec.initOk

/-- Claim C2 (amended): `connect_to_server` registers no partial state
when it fails at the suffix check, the transport setup, or the
`initialize` handshake; but when the tool-listing step fails, the call
raises AFTER the session entry was stored, leaving the new session in
`self.sessions` while `self.server_tools` is unchanged. On success both
maps gain the new entry. -/
theorem connect_registration_cases (st : MCPClient) (spec : ServerSpec) :
    (preRegOk spec = false → (connect_to_server st spec).2 = st) ∧
    (preRegOk spec = true → spec.listToolsResult = none →
      (connect_to_server st spec).1 = Except.error ConnectError.listToolsError ∧
      (connect_to_server st spec).2.sessions =
        insertA st.sessions (nextServerId st) spec.handle ∧
      (connect_to_server st spec).2.server_tools = st.server_tools) ∧
    (∀ tools, preRegOk spec = true → spec.listToolsResult = some tools →
      (connect_to_server st spec).1 = Except.ok (nextServerId st) ∧
      (connect_to_server st spec).2.sessions =
        insertA st.sessions (nextServerId st) spec.handle ∧
      (connect_to_server st spec).2.server_tools =
        insertA st.server_tools (nextServerId st) tools) := by
  obtain ⟨path, tOk, iOk, handle, ltr⟩ := spec
  cases hpy : strEndsWith path ".py" <;>
    cases hjs : strEndsWith path ".js" <;>
      cases tOk <;> cases iOk <;> cases ltr <;>
        simp_all [connect_to_server, preRegOk, nextServerId]

/-- Witness for `connect_registration_cases` at the empty client: a
handshake failure registers nothing; a tool-listing failure leaves the
session registered with no tool entry; a clean connect registers both. -/
theorem connect_registration_cases_witness :
    (connect_to_server ⟨[], []⟩ specFailInit).2 = ⟨[], []⟩ ∧
    ((connect_to_server ⟨[], []⟩ specLT).1 =
        Except.error ConnectError.listToolsError ∧
      (connect_to_server ⟨[], []⟩ specLT).2.sessions =
        insertA [] (nextServerId ⟨[], []⟩) 7 ∧
      (connect_to_server ⟨[], []⟩ specLT).2.server_tools = []) ∧
    ((connect_to_server ⟨[], []⟩ specOk).1 =
        Except.ok (nextServerId ⟨[], []⟩) ∧
      (connect_to_server ⟨[], []⟩ specOk).2.sessions =
        insertA [] (nextServerId ⟨[], []⟩) 2 ∧
      (connect_to_server ⟨[], []⟩ specOk).2.server_tools =
        insertA [] (nextServerId ⟨[], []⟩) []) :=
  ⟨(connect_registration_cases ⟨[], []⟩ specFailInit).1 (by decide),
   (connect_registration_cases ⟨[], []⟩ specLT).2.1 (by decide) rfl,
   (connect_registration_cases ⟨[], []⟩ specOk).2.2 [] (by decide) rfl⟩

/-- Claim C3 (amended): the identifier handed out by `connect_to_server`
is always `server_{len(self.sessions) + 1}` — so the index advances
exactly when a session is registered (a success or a tool-listing
failure) and stays put when the call fails before registration, in which
case the same identifier is recomputed by the next call. Provided the
computed identifier is not already a key (as holds along normal
histories), a registering call appends it at the end of the registry, so
an identifier that is registered while fresh is never displaced. -/
theorem connect_id_assignment (st : MCPClient) (spec : ServerSpec)
    (hfresh : nextServerId st ∉ st.sessions.map Prod.fst) :
    (∀ x, (connect_to_server st spec).1 = Except.ok x → x = nextServerId st) ∧
    (preRegOk spec = false →
      (connect_to_server st spec).2.sessions.map Prod.fst =
        st.sessions.map Prod.fst) ∧
    (preRegOk spec = true →
      (connect_to_server st spec).2.sessions.map Prod.fst =
        st.sessions.map Prod.fst ++ [nextServerId st]) := by
  have happ : ∀ v : Nat, insertA st.sessions (nextServerId st) v =
      st.sessions ++ [(nextServerId st, v)] :=
    fun v => insertA_of_not_mem _ _ _ hfresh
  obtain ⟨path, tOk, iOk, handle, ltr⟩ := spec
  cases hpy : strEndsWith path ".py" <;>
    cases hjs : strEndsWith path ".js" <;>
      cases tOk <;> cases iOk <;> cases ltr <;>
        simp_all [connect_to_server, preRegOk, nextServerId]

/-- Witness for `connect_id_assignment` at the empty client: a successful
connect is assigned `server_1` and appends it; a pre-registration failure
leaves the registry's keys unchanged. -/
theorem connect_id_assignment_witness :
    "server_1" = nextServerId ⟨[], []⟩ ∧
    (connect_to_server ⟨[], []⟩ specFailInit).2.sessions.map Prod.fst = [] ∧
    (connect_to_server ⟨[], []⟩ specOk).2.sessions.map Prod.fst =
      [] ++ [nextServerId ⟨[], []⟩] :=
  ⟨(connect_id_assignment ⟨[], []⟩ specOk (by decide)).1 "server_1" (by decide),
   (connect_id_assignment ⟨[], []⟩ specFailInit (by decide)).2.1 (by decide),
   (connect_id_assignment ⟨[], []⟩ specOk (by decide)).2.2 (by decide)⟩

/-- A well-formed model stream: non-empty, with `message_stop` occurring
exactly once, as its last event — the shape the streaming API produces. -/
def wfStream : List StreamEvent → Bool
  | [] => false
  | StreamEvent.messageStop :: rest => rest.isEmpty
  | _ :: rest => wfStream rest

/-- The text-delta payloads of a stream, in order. -/
def deltaStrings : List StreamEvent → List String
  | [] => []
  | StreamEvent.textDelta t :: rest => t :: deltaStrings rest
  | _ :: rest => deltaStrings rest

/-- Concatenation of a list of strings, in order. -/
def concatAll : List String → String
  | [] => ""
  | s :: rest => s ++ concatAll rest

/-- The concatenation, in order, of everything an effect trace passed to
the output callback. -/
def outputText (effs : List Effect) : String :=
  concatAll (effs.filterMap fun e =>
    match e with
    | Effect.outputChunk s => some s
    | _ => none)

/-- On a well-formed stream, the initial event loop ends with an empty
buffer, flushes exactly the concatenation of the deltas (if non-empty)
into `final_text`, and emits exactly the deltas on the output callback. -/
theorem streamLoop_wf (evs : List StreamEvent) (h : wfStream evs = true) :
    ∀ buf ft, streamLoop evs buf ft =
      ("",
       ft ++ (if buf ++ concatAll (deltaStrings evs) = "" then []
              else [buf ++ concatAll (deltaStrings evs)]),
       (deltaStrings evs).map Effect.outputChunk) := by
  induction evs with
  | nil => simp [wfStream] at h
  | cons e rest ih =>
    intro buf ft
    cases e with
    | textDelta t =>
      have h' : wfStream rest = true := by simpa [wfStream] using h
      simp only [streamLoop, ih h' (buf ++ t) ft, deltaStrings, concatAll,
        List.map_cons, String.append_assoc]
    | messageStop =>
      have h' : rest = [] := by
        simpa [wfStream, List.isEmpty_iff] using h
      subst h'
      by_cases hb : buf = ""
      · simp [streamLoop, hb, deltaStrings, concatAll]
      · simp [streamLoop, hb, deltaStrings, concatAll, String.append_empty]
    | other =>
      have h' : wfStream rest = true := by simpa [wfStream] using h
      simp only [streamLoop, ih h', deltaStrings]

/-- Mapping strings into output chunks and filtering the chunks back out
is the identity. -/
theorem filterMap_outputChunk (l : List String) :
    (l.map Effect.outputChunk).filterMap (fun e =>
      match e with
      | Effect.outputChunk s => some s
      | _ => none) = l := by
  induction l with
  | nil => rfl
  | cons s rest ih => simp [ih]

/-- Claim C8: for an `ask` whose streamed response contains no tool-use
block (and whose stream is well formed: one `message_stop`, at the end),
the concatenation, in order, of all text passed to the output callback
equals the text the call returns. -/
theorem stream_text_equals_result (st : MCPClient) (env : Env) (q : String)
    (resp : ModelResponse)
    (h₀ : st.sessions ≠ [])
    (h₁ : env.model [⟨"user", q⟩] (some (buildCatalog st.server_tools).1) =
      Except.ok resp)
    (h₂ : resp.toolUses = [])
    (h₃ : wfStream resp.events = true) :
    (processQuery st env q).result =
      Except.ok (outputText (processQuery st env q).effects) := by
  unfold processQuery
  simp only [h₀, if_neg, reduceIte, h₁]
  rw [streamLoop_wf resp.events h₃ "" []]
  simp only [h₂, dispatchTools, String.empty_append, List.nil_append]
  rw [outputText]
  simp only [List.filterMap_cons, filterMap_outputChunk]
  by_cases hj : concatAll (deltaStrings resp.events) = ""
  · simp [hj, String.intercalate]
  · simp only [hj, if_neg, reduceIte, String.intercalate]
    rfl

/-- A model whose response streams two text deltas and stops, with no
tool use. -/
def envC8 : Env :=
  ⟨fun _ _ =>
      Except.ok ⟨[StreamEvent.textDelta "Result ", StreamEvent.textDelta "is 42",
        StreamEvent.messageStop], []⟩,
    fun _ _ _ => Except.error "unused"⟩

/-- Witness for `stream_text_equals_result` at a concrete two-delta
stream. -/
theorem stream_text_equals_result_witness :
    (processQuery stOne envC8 "q").result =
      Except.ok (outputText (processQuery stOne envC8 "q").effects) :=
  stream_text_equals_result stOne envC8 "q"
    ⟨[StreamEvent.textDelta "Result ", StreamEvent.textDelta "is 42",
      StreamEvent.messageStop], []⟩
    (by decide) rfl rfl (by decide)

/-- The follow-up event loop performs no model submission. -/
theorem followLoop_modelCallCount (evs : List StreamEvent) (buf : String) :
    modelCallCount (followLoop evs buf).2 = 0 := by
  induction evs generalizing buf with
  | nil => simp [followLoop, modelCallCount]
  | cons e rest ih =>
    cases e with
    | textDelta t =>
      simp only [followLoop, modelCallCount, List.countP_cons, isModelCall]
      simpa [modelCallCount] using ih (buf ++ t)
    | messageStop => simpa [followLoop] using ih buf
    | other => simpa [followLoop] using ih buf

/-- No effect of the follow-up event loop is a model submission. -/
theorem followLoop_not_modelCall (evs : List StreamEvent) (buf : String) :
    ∀ m t, Effect.modelCall m t ∉ (followLoop evs buf).2 := by
  induction evs generalizing buf with
  | nil => simp [followLoop]
  | cons e rest ih =>
    intro m t
    cases e with
    | textDelta t₁ =>
      simp only [followLoop, List.mem_cons, not_or]
      exact ⟨by simp, ih (buf ++ t₁) m t⟩
    | messageStop => simpa [followLoop] using ih buf m t
    | other => simpa [followLoop] using ih buf m t

/-- The number of tool-use events of a round that resolve to a session
and whose `call_tool` invocation succeeds — the events after which the
source performs a follow-up model submission. (A missing session key
raises `KeyError`, aborting the round, so later events count zero.) -/
def successCount (env : Env) (sessions : List (String × Nat))
    (map : List (String × String)) : List ToolUse → Nat
  | [] => 0
  | tu :: rest =>
    let server_id := (alookup map tu.name).getD ""
    if server_id = "" then successCount env sessions map rest
    else
      match alookup sessions server_id with
      | none => 0
      | some session =>
        match env.callTool session tu.name tu.input with
        | Except.ok _ => successCount env sessions map rest + 1
        | Except.error _ => successCount env sessions map rest

/-- Claim C1 (amended): the dispatch loop performs one model resubmission
per tool-use event that resolves and whose invocation succeeds —
immediately after folding that call's result into the transcript, NOT
once after all events — and every one of these follow-up submissions
carries no `tools` parameter. -/
theorem dispatch_followups_per_successful_tool (env : Env)
    (sessions : List (String × Nat)) (map : List (String × String))
    (tus : List ToolUse) : ∀ s : LoopState,
    ∃ new, (dispatchTools env sessions map tus s).1.effects = s.effects ++ new ∧
      modelCallCount new = successCount env sessions map tus ∧
      ∀ m t, Effect.modelCall m t ∈ new → t = none := by
  induction tus with
  | nil =>
    intro s
    exact ⟨[], by simp [dispatchTools], by simp [modelCallCount, successCount],
      by simp⟩
  | cons tu rest ih =>
    intro s
    by_cases h₁ : (alookup map tu.name).getD "" = ""
    · have step : dispatchTools env sessions map (tu :: rest) s =
          dispatchTools env sessions map rest
            { s with
              final_text := s.final_text ++ [unresolvedMsg tu.name],
              effects := s.effects ++ [Effect.outputChunk (unresolvedMsg tu.name)] } := by
        simp [dispatchTools, h₁]
      obtain ⟨new', hE, hC, hN⟩ := ih
        { s with
          final_text := s.final_text ++ [unresolvedMsg tu.name],
          effects := s.effects ++ [Effect.outputChunk (unresolvedMsg tu.name)] }
      refine ⟨Effect.outputChunk (unresolvedMsg tu.name) :: new', ?_, ?_, ?_⟩
      · rw [step, hE]; simp
      · simp only [modelCallCount, List.countP_cons, isModelCall] at hC ⊢
        simp [hC, successCount, h₁]
      · intro m t hm
        rcases List.mem_cons.1 hm with h | h
        · exact absurd h (by simp)
        · exact hN m t h
    · cases hs : alookup sessions ((alookup map tu.name).getD "") with
      | none =>
        have step : dispatchTools env sessions map (tu :: rest) s =
            (s, some (PyError.keyError ((alookup map tu.name).getD ""))) := by
          simp [dispatchTools, h₁, hs]
        refine ⟨[], by rw [step]; simp, ?_, by simp⟩
        simp [modelCallCount, successCount, h₁, hs]
      | some session =>
        cases hct : env.callTool session tu.name tu.input with
        | error e =>
          have step : dispatchTools env sessions map (tu :: rest) s =
              dispatchTools env sessions map rest
                { s with
                  final_text := s.final_text ++
                    [toolCallMsg ((alookup map tu.name).getD "") tu.name tu.input,
                     toolErrMsg ((alookup map tu.name).getD "") e],
                  effects := s.effects ++
                    [Effect.outputChunk
                       (toolCallMsg ((alookup map tu.name).getD "") tu.name tu.input),
                     Effect.toolCall ((alookup map tu.name).getD "") tu.name tu.input,
                     Effect.outputChunk (toolErrMsg ((alookup map tu.name).getD "") e)] } := by
            simp [dispatchTools, tryBody, h₁, hs, hct]
          obtain ⟨new', hE, hC, hN⟩ := ih
            { s with
              final_text := s.final_text ++
                [toolCallMsg ((alookup map tu.name).getD "") tu.name tu.input,
                 toolErrMsg ((alookup map tu.name).getD "") e],
              effects := s.effects ++
                [Effect.outputChunk
                   (toolCallMsg ((alookup map tu.name).getD "") tu.name tu.input),
                 Effect.toolCall ((alookup map tu.name).getD "") tu.name tu.input,
                 Effect.outputChunk (toolErrMsg ((alookup map tu.name).getD "") e)] }
          refine ⟨Effect.outputChunk
              (toolCallMsg ((alookup map tu.name).getD "") tu.name tu.input) ::
            Effect.toolCall ((alookup map tu.name).getD "") tu.name tu.input ::
            Effect.outputChunk (toolErrMsg ((alookup map tu.name).getD "") e) ::
            new', ?_, ?_, ?_⟩
          · rw [step, hE]; simp
          · simp only [modelCallCount, List.countP_cons, isModelCall] at hC ⊢
            simp [hC, successCount, h₁, hs, hct]
          · intro m t hm
            rcases List.mem_cons.1 hm with h | h
            · exact absurd h (by simp)
            rcases List.mem_cons.1 h with h' | h'
            · exact absurd h' (by simp)
            rcases List.mem_cons.1 h' with h₂ | h₂
            · exact absurd h₂ (by simp)
            · exact hN m t h₂
        | ok content =>
          cases hmo : env.model
              (s.messages ++ (assistantText tu ++ [⟨"user", content⟩])) none with
          | error e =>
            have step : dispatchTools env sessions map (tu :: rest) s =
                dispatchTools env sessions map rest
                  { messages := s.messages ++
                      (assistantText tu ++ [⟨"user", content⟩]),
                    final_text := s.final_text ++
                      [toolCallMsg ((alookup map tu.name).getD "") tu.name tu.input,
                       toolErrMsg ((alookup map tu.name).getD "") e],
                    text_buffer := s.text_buffer,
                    effects := s.effects ++
                      [Effect.outputChunk
                         (toolCallMsg ((alookup map tu.name).getD "") tu.name tu.input),
                       Effect.toolCall ((alookup map tu.name).getD "") tu.name tu.input,
                       Effect.outputChunk (toolResultMsg content),
                       Effect.outputChunk processingMsg,
                       Effect.modelCall
                         (s.messages ++ (assistantText tu ++ [⟨"user", content⟩])) none,
                       Effect.outputChunk (toolErrMsg ((alookup map tu.name).getD "") e)] } := by
              simp [dispatchTools, tryBody, h₁, hs, hct, hmo]
            obtain ⟨new', hE, hC, hN⟩ := ih
              { messages := s.messages ++ (assistantText tu ++ [⟨"user", content⟩]),
                final_text := s.final_text ++
                  [toolCallMsg ((alookup map tu.name).getD "") tu.name tu.input,
                   toolErrMsg ((alookup map tu.name).getD "") e],
                text_buffer := s.text_buffer,
                effects := s.effects ++
                  [Effect.outputChunk
                     (toolCallMsg ((alookup map tu.name).getD "") tu.name tu.input),
                   Effect.toolCall ((alookup map tu.name).getD "") tu.name tu.input,
                   Effect.outputChunk (toolResultMsg content),
                   Effect.outputChunk processingMsg,
                   Effect.modelCall
                     (s.messages ++ (assistantText tu ++ [⟨"user", content⟩])) none,
                   Effect.outputChunk (toolErrMsg ((alookup map tu.name).getD "") e)] }
            refine ⟨Effect.outputChunk
                (toolCallMsg ((alookup map tu.name).getD "") tu.name tu.input) ::
              Effect.toolCall ((alookup map tu.name).getD "") tu.name tu.input ::
              Effect.outputChunk (toolResultMsg content) ::
              Effect.outputChunk processingMsg ::
              Effect.modelCall
                (s.messages ++ (assistantText tu ++ [⟨"user", content⟩])) none ::
              Effect.outputChunk (toolErrMsg ((alookup map tu.name).getD "") e) ::
              new', ?_, ?_, ?_⟩
            · rw [step, hE]; simp
            · simp only [modelCallCount, List.countP_cons, isModelCall] at hC ⊢
              simp only [successCount, h₁, hs, hct, if_neg, reduceIte]
              simp [hC]
            · intro m t hm
              simp only [List.mem_cons] at hm
              rcases hm with h | h | h | h | h | h | h
              · exact absurd h (by simp)
              · exact absurd h (by simp)
              · exact absurd h (by simp)
              · exact absurd h (by simp)
              · exact (Effect.modelCall.inj h).2
              · exact absurd h (by simp)
              · exact hN m t h
          | ok resp₂ =>
            by_cases hf : (followLoop resp₂.events s.text_buffer).1 = ""
            · have step : dispatchTools env sessions map (tu :: rest) s =
                  dispatchTools env sessions map rest
                    { messages := s.messages ++
                        (assistantText tu ++ [⟨"user", content⟩]),
                      final_text := s.final_text ++
                        [toolCallMsg ((alookup map tu.name).getD "") tu.name tu.input],
                      text_buffer := (followLoop resp₂.events s.text_buffer).1,
                      effects := s.effects ++
                        Effect.outputChunk
                          (toolCallMsg ((alookup map tu.name).getD "") tu.name tu.input) ::
                        Effect.toolCall ((alookup map tu.name).getD "") tu.name tu.input ::
                        Effect.outputChunk (toolResultMsg content) ::
                        Effect.outputChunk processingMsg ::
                        Effect.modelCall
                          (s.messages ++ (assistantText tu ++ [⟨"user", content⟩])) none ::
                        (followLoop resp₂.events s.text_buffer).2 } := by
                simp [dispatchTools, tryBody, h₁, hs, hct, hmo, hf]
              obtain ⟨new', hE, hC, hN⟩ := ih
                { messages := s.messages ++ (assistantText tu ++ [⟨"user", content⟩]),
                  final_text := s.final_text ++
                    [toolCallMsg ((alookup map tu.name).getD "") tu.name tu.input],
                  text_buffer := (followLoop resp₂.events s.text_buffer).1,
                  effects := s.effects ++
                    Effect.outputChunk
                      (toolCallMsg ((alookup map tu.name).getD "") tu.name tu.input) ::
                    Effect.toolCall ((alookup map tu.name).getD "") tu.name tu.input ::
                    Effect.outputChunk (toolResultMsg content) ::
                    Effect.outputChunk processingMsg ::
                    Effect.modelCall
                      (s.messages ++ (assistantText tu ++ [⟨"user", content⟩])) none ::
                    (followLoop resp₂.events s.text_buffer).2 }
              refine ⟨Effect.outputChunk
                  (toolCallMsg ((alookup map tu.name).getD "") tu.name tu.input) ::
                Effect.toolCall ((alookup map tu.name).getD "") tu.name tu.input ::
                Effect.outputChunk (toolResultMsg content) ::
                Effect.outputChunk processingMsg ::
                Effect.modelCall
                  (s.messages ++ (assistantText tu ++ [⟨"user", content⟩])) none ::
                ((followLoop resp₂.events s.text_buffer).2 ++ new'), ?_, ?_, ?_⟩
              · rw [step, hE]; simp
              · simp only [modelCallCount, List.countP_cons, List.countP_append,
                  isModelCall] at hC ⊢
                have hfl := followLoop_modelCallCount resp₂.events s.text_buffer
                simp only [modelCallCount] at hfl
                simp only [successCount, h₁, hs, hct, if_neg, reduceIte]
                simp [hC, hfl]
              · intro m t hm
                simp only [List.mem_cons, List.mem_append] at hm
                rcases hm with h | h | h | h | h | h
                · exact absurd h (by simp)
                · exact absurd h (by simp)
                · exact absurd h (by simp)
                · exact absurd h (by simp)
                · exact (Effect.modelCall.inj h).2
                rcases h with h | h
                · exact absurd h (followLoop_not_modelCall resp₂.events s.text_buffer m t)
                · exact hN m t h
            · have step : dispatchTools env sessions map (tu :: rest) s =
                  dispatchTools env sessions map rest
                    { messages := s.messages ++
                        (assistantText tu ++ [⟨"user", content⟩]),
                      final_text := s.final_text ++
                        [toolCallMsg ((alookup map tu.name).getD "") tu.name tu.input,
                         (followLoop resp₂.events s.text_buffer).1],
                      text_buffer := "",
                      effects := s.effects ++
                        Effect.outputChunk
                          (toolCallMsg ((alookup map tu.name).getD "") tu.name tu.input) ::
                        Effect.toolCall ((alookup map tu.name).getD "") tu.name tu.input ::
                        Effect.outputChunk (toolResultMsg content) ::
                        Effect.outputChunk processingMsg ::
                        Effect.modelCall
                          (s.messages ++ (assistantText tu ++ [⟨"user", content⟩])) none ::
                        (followLoop resp₂.events s.text_buffer).2 } := by
                simp [dispatchTools, tryBody, h₁, hs, hct, hmo, hf]
              obtain ⟨new', hE, hC, hN⟩ := ih
                { messages := s.messages ++ (assistantText tu ++ [⟨"user", content⟩]),
                  final_text := s.final_text ++
                    [toolCallMsg ((alookup map tu.name).getD "") tu.name tu.input,
                     (followLoop resp₂.events s.text_buffer).1],
                  text_buffer := "",
                  effects := s.effects ++
                    Effect.outputChunk
                      (toolCallMsg ((alookup map tu.name).getD "") tu.name tu.input) ::
                    Effect.toolCall ((alookup map tu.name).getD "") tu.name tu.input ::
                    Effect.outputChunk (toolResultMsg content) ::
                    Effect.outputChunk processingMsg ::
                    Effect.modelCall
                      (s.messages ++ (assistantText tu ++ [⟨"user", content⟩])) none ::
                    (followLoop resp₂.events s.text_buffer).2 }
              refine ⟨Effect.outputChunk
                  (toolCallMsg ((alookup map tu.name).getD "") tu.name tu.input) ::
                Effect.toolCall ((alookup map tu.name).getD "") tu.name tu.input ::
                Effect.outputChunk (toolResultMsg content) ::
                Effect.outputChunk processingMsg ::
                Effect.modelCall
                  (s.messages ++ (assistantText tu ++ [⟨"user", content⟩])) none ::
                ((followLoop resp₂.events s.text_buffer).2 ++ new'), ?_, ?_, ?_⟩
              · rw [step, hE]; simp
              · simp only [modelCallCount, List.countP_cons, List.countP_append,
                  isModelCall] at hC ⊢
                have hfl := followLoop_modelCallCount resp₂.events s.text_buffer
                simp only [modelCallCount] at hfl
                simp only [successCount, h₁, hs, hct, if_neg, reduceIte]
                simp [hC, hfl]
              · intro m t hm
                simp only [List.mem_cons, List.mem_append] at hm
                rcases hm with h | h | h | h | h | h
                · exact absurd h (by simp)
                · exact absurd h (by simp)
                · exact absurd h (by simp)
                · exact absurd h (by simp)
                · exact (Effect.modelCall.inj h).2
                rcases h with h | h
                · exact absurd h (followLoop_not_modelCall resp₂.events s.text_buffer m t)
                · exact hN m t h
